import Mathlib

/-!
Verification development for the HoneyMesh core:
the filesystem snapshot serializer (`medium/generatePickle.py`) and the
template materializer (`medium/template_loader.py`).

The serializer is embedded over an abstract filesystem oracle `FS`
(listing, stat, symlink resolution); the materializer is embedded over
pathlib-style segment paths (`List String`), with OS-level `..`
resolution made explicit at the write/mkdir boundary.
-/

namespace HoneyMesh

/-! ## String primitives

Python's `str` operations are character-based, so they are embedded as
operations on the character list `String.data` (the library's
byte-position-based `String.startsWith` etc. are semantically identical
on valid strings but do not reduce well definitionally). -/

/-- Python `s.startswith(t)`. -/
def strStartsWith (s t : String) : Bool := t.data.isPrefixOf s.data

/-- Python `s.endswith(t)`. -/
def strEndsWith (s t : String) : Bool := t.data.isSuffixOf s.data

/-- Python `s[n:]` (character slicing). -/
def strDrop (s : String) (n : Nat) : String := String.mk (s.data.drop n)

/-- Python `s.split('/')` (also `str.splitOn "/"`). -/
def segsOfAux : List Char → List Char → List String
  | [], acc => [String.mk acc.reverse]
  | c :: cs, acc =>
    if c = '/' then String.mk acc.reverse :: segsOfAux cs []
    else segsOfAux cs (c :: acc)

def segsOf (s : String) : List String := segsOfAux s.data []

/-! ## Path helpers (os.path semantics on strings) -/

/-- Embeds `os.path.join(a, b)` for the two-argument cases used by the walker. -/
def pjoin (a b : String) : String :=
  if strStartsWith b "/" then b
  else if a = "" || strEndsWith a "/" then a ++ b
  else a ++ "/" ++ b

/-! ## stat-module type predicates (`S_IFMT` masking, as in Python's `stat`) -/

def S_IFMT : Nat := 0o170000

def S_ISLNK (m : Nat) : Bool := Nat.land m S_IFMT == 0o120000
def S_ISDIR (m : Nat) : Bool := Nat.land m S_IFMT == 0o040000
def S_ISREG (m : Nat) : Bool := Nat.land m S_IFMT == 0o100000
def S_ISBLK (m : Nat) : Bool := Nat.land m S_IFMT == 0o060000
def S_ISCHR (m : Nat) : Bool := Nat.land m S_IFMT == 0o020000
def S_ISSOCK (m : Nat) : Bool := Nat.land m S_IFMT == 0o140000
def S_ISFIFO (m : Nat) : Bool := Nat.land m S_IFMT == 0o010000

/-! ## fnmatch-style glob matching

The blacklist patterns of `generatePickle.py` use only `*` wildcards and
literal characters, so the embedding covers `*`, `?` and literals
(`fnmatch.translate` semantics: `*` matches any character run including
`/`, `?` any single character). -/

/-- All suffixes of a character list, longest first. -/
def tails : List Char → List (List Char)
  | [] => [[]]
  | c :: cs => (c :: cs) :: tails cs

def globMatch : List Char → List Char → Bool
  | [], l => l.isEmpty
  | p :: ps, l =>
    if p = '*' then (tails l).any (fun l' => globMatch ps l')
    else
      match l with
      | [] => false
      | c :: cs => if p = '?' then globMatch ps cs else p == c && globMatch ps cs

/-- Embeds `fnmatch.fnmatch(filepath, pattern)` (POSIX `normcase` is the identity). -/
def fnmatch (filepath pattern : String) : Bool :=
  globMatch pattern.data filepath.data

/-- The `BLACKLIST_FILES` list of `generatePickle.py`. -/
def BLACKLIST_FILES : List String :=
  ["/root/fs.pickle", "/root/createfs", "*cowrie*", "*kippo*", "*.pickle"]

/-- Embeds `check_blacklist(filepath)`: any blacklist pattern matches. -/
def check_blacklist (filepath : String) : Bool :=
  BLACKLIST_FILES.any (fun pattern => fnmatch filepath pattern)

/-! ## Data model of the snapshot tree

The source stores each entry as a fixed-position ten-slot list
`[A_NAME, A_TYPE, A_UID, A_GID, A_SIZE, A_MODE, A_CTIME, A_CONTENTS,
A_TARGET, A_REALFILE]`; the embedding uses one constructor with the same
ten fields in the same order.  (The root entry built in `generate_pickle`
has only nine slots — no `A_REALFILE`; its absent slot is `none` here.) -/

def T_LINK : Nat := 0
def T_DIR : Nat := 1
def T_FILE : Nat := 2
def T_BLK : Nat := 3
def T_CHR : Nat := 4
def T_SOCK : Nat := 5
def T_FIFO : Nat := 6

inductive Entry : Type where
  | mk (name : String) (ftype : Nat) (uid gid size mode : Nat) (mtime : Int)
       (contents : List Entry) (target : Option String)
       (realfile : Option String) : Entry

def Entry.name : Entry → String
  | .mk n _ _ _ _ _ _ _ _ _ => n

def Entry.ftype : Entry → Nat
  | .mk _ t _ _ _ _ _ _ _ _ => t

def Entry.uid : Entry → Nat
  | .mk _ _ u _ _ _ _ _ _ _ => u

def Entry.gid : Entry → Nat
  | .mk _ _ _ g _ _ _ _ _ _ => g

def Entry.size : Entry → Nat
  | .mk _ _ _ _ s _ _ _ _ _ => s

def Entry.mode : Entry → Nat
  | .mk _ _ _ _ _ m _ _ _ _ => m

def Entry.contents : Entry → List Entry
  | .mk _ _ _ _ _ _ _ cs _ _ => cs

def Entry.target : Entry → Option String
  | .mk _ _ _ _ _ _ _ _ tg _ => tg

/-- Result of `os.stat` / `os.lstat` (the fields the walker reads). -/
structure Stat : Type where
  st_uid : Nat
  st_gid : Nat
  st_size : Nat
  st_mode : Nat
  st_mtime : Int
deriving DecidableEq

/-- Abstract filesystem oracle: the OS calls made by `generatePickle.py`.
`Except Unit` models the exceptions the code catches per entry
(`PermissionError` on `listdir`, `OSError` on `stat`/`lstat`). -/
structure FS : Type where
  isdir : String → Bool
  pexists : String → Bool
  access : String → Bool
  islink : String → Bool
  lstat : String → Except Unit Stat
  stat : String → Except Unit Stat
  listdir : String → Except Unit (List String)
  realpath : String → String

/-- Chooses `os.lstat` for symlinks, `os.stat` otherwise (lines 86-92). -/
def statOf (fs : FS) (path : String) : Except Unit Stat :=
  if fs.islink path then fs.lstat path else fs.stat path

/-- The entry list built at lines 94-105 and mutated by the type branches:
`[name, ftype, uid, gid, size, mode, int(mtime), contents, target, None]`. -/
def mkEntry (name : String) (s : Stat) (ftype : Nat)
    (contents : List Entry) (target : Option String) : Entry :=
  .mk name ftype s.st_uid s.st_gid s.st_size s.st_mode s.st_mtime
      contents target none

/-- The `elif` chain of lines 120-129 (after the `S_ISLNK`/`S_ISDIR`
branches): an unmatched mode keeps the pre-assigned `T_FILE` default. -/
def classifyRest (m : Nat) : Nat :=
  if S_ISREG m then T_FILE
  else if S_ISBLK m then T_BLK
  else if S_ISCHR m then T_CHR
  else if S_ISSOCK m then T_SOCK
  else if S_ISFIFO m then T_FIFO
  else T_FILE

/-- One iteration of the `for name in items` loop of `recurse`
(lines 79-131).  `rec` is the recursive call available for the directory
branch; `none` is the loop's `continue` (entry skipped). -/
def processItem (fs : FS) (localroot : String) (rec : String → List Entry)
    (root localpath name : String) : Option Entry :=
  let fspath := pjoin root name
  if check_blacklist fspath then none
  else
    let path := pjoin localpath name
    match statOf fs path with
    | .error _ => none
    | .ok s =>
      if S_ISLNK s.st_mode then
        if fs.access path = false then none
        else if strStartsWith (fs.realpath path) localroot = false then none
        else some (mkEntry name s T_LINK []
          (some (strDrop (fs.realpath path) localroot.length)))
      else if S_ISDIR s.st_mode then
        some (mkEntry name s T_DIR (rec fspath) none)
      else
        some (mkEntry name s (classifyRest s.st_mode) [] none)

/-- Embeds `recurse(localroot, root, tree, maxdepth)` (lines 57-131), returning
the list appended to `tree`.  Depth is a natural number (all call sites
pass nonnegative depths), so the `maxdepth > 0` guard of line 118 is
always true once the `maxdepth == 0` early return has not fired, and the
directory branch always recurses with `maxdepth - 1`. -/
def recurse (fs : FS) (localroot : String) (maxdepth : Nat) (root : String) :
    List Entry :=
  match maxdepth with
  | 0 => []
  | d + 1 =>
    let localpath := pjoin localroot (strDrop root 1)
    if fs.access localpath = false then []
    else
      match fs.listdir localpath with
      | .error _ => []
      | .ok items =>
        items.filterMap
          (processItem fs localroot (fun r => recurse fs localroot d r)
            root localpath)
termination_by structural maxdepth

/-- Error taxonomy of `generate_pickle`'s precondition checks. -/
inductive GenError : Type where
  | SourceNotFound : GenError
  | AlreadyExists : GenError
deriving DecidableEq

/-- Content of a path in the output store: either pre-existing raw data
or a written snapshot artifact (`pickle.dump` of the tree, abstracted as
the tree itself). -/
inductive FileData : Type where
  | raw (s : String) : FileData
  | pickled (e : Entry) : FileData

/-- Embeds `generate_pickle(source_dir, output_file, maxdepth)` (lines 134-178):
precondition checks, root-entry construction
`["/", T_DIR, 0, 0, 0, 0, 0, [], ""]`, the walk, and the single
`pickle.dump` to `output_file`.  Returns the result together with the
final output store. -/
def generate_pickle (fs : FS) (store : String → Option FileData)
    (source_dir output_file : String) (maxdepth : Nat) :
    Except GenError Entry × (String → Option FileData) :=
  if fs.isdir source_dir = false then (.error .SourceNotFound, store)
  else if fs.pexists output_file then (.error .AlreadyExists, store)
  else
    let tree : Entry :=
      .mk "/" T_DIR 0 0 0 0 0 (recurse fs source_dir maxdepth "/")
          (some "") none
    (.ok tree,
     fun p => if p = output_file then some (.pickled tree) else store p)

/-! ## Recursive predicates over the snapshot tree -/

mutual
/-- Nesting height of an entry (an entry with empty `contents` has
height 1). -/
def entryHeight : Entry → Nat
  | .mk _ _ _ _ _ _ _ cs _ _ => 1 + listHeight cs
/-- Maximal `entryHeight` over a list of entries. -/
def listHeight : List Entry → Nat
  | [] => 0
  | e :: es => max (entryHeight e) (listHeight es)
end

mutual
/-- Boolean "every entry of the tree satisfies `p`", including the
entry itself and all nested children. -/
def entryAll (p : Entry → Bool) : Entry → Bool
  | .mk n t u g sz m mt cs tg rf =>
    p (.mk n t u g sz m mt cs tg rf) && listAll p cs
/-- Boolean "every entry of every tree in the list satisfies `p`". -/
def listAll (p : Entry → Bool) : List Entry → Bool
  | [] => true
  | e :: es => entryAll p e && listAll p es
end

/-- Propositional "every entry of the tree satisfies `P`". -/
inductive EntryAllP (P : Entry → Prop) : Entry → Prop where
  | intro (e : Entry) (h : P e)
      (hc : ∀ c ∈ e.contents, EntryAllP P c) : EntryAllP P e

mutual
/-- Structural boolean equality on entries (for decidability). -/
def entryBEq : Entry → Entry → Bool
  | .mk n1 t1 u1 g1 sz1 m1 mt1 cs1 tg1 rf1,
    .mk n2 t2 u2 g2 sz2 m2 mt2 cs2 tg2 rf2 =>
    n1 == n2 && t1 == t2 && u1 == u2 && g1 == g2 && sz1 == sz2 &&
    m1 == m2 && mt1 == mt2 && entryListBEq cs1 cs2 && tg1 == tg2 &&
    rf1 == rf2
/-- Structural boolean equality on entry lists. -/
def entryListBEq : List Entry → List Entry → Bool
  | [], [] => true
  | a :: as, b :: bs => entryBEq a b && entryListBEq as bs
  | _, _ => false
end

mutual
theorem entryBEq_iff (a b : Entry) : entryBEq a b = true ↔ a = b := by
  match a, b with
  | .mk n1 t1 u1 g1 sz1 m1 mt1 cs1 tg1 rf1,
    .mk n2 t2 u2 g2 sz2 m2 mt2 cs2 tg2 rf2 =>
    rw [entryBEq]
    simp only [Bool.and_eq_true, beq_iff_eq, entryListBEq_iff cs1 cs2,
      Entry.mk.injEq]
    tauto
theorem entryListBEq_iff (as bs : List Entry) :
    entryListBEq as bs = true ↔ as = bs := by
  match as, bs with
  | [], [] => simp [entryListBEq]
  | [], _ :: _ => simp [entryListBEq]
  | _ :: _, [] => simp [entryListBEq]
  | a :: as, b :: bs =>
    rw [entryListBEq]
    simp only [Bool.and_eq_true, entryBEq_iff a b, entryListBEq_iff as bs,
      List.cons.injEq]
end

instance : DecidableEq Entry :=
  fun a b => decidable_of_iff _ (entryBEq_iff a b)

instance {ε α : Type} [DecidableEq ε] [DecidableEq α] :
    DecidableEq (Except ε α) := fun a b =>
  match a, b with
  | .ok x, .ok y =>
    if h : x = y then .isTrue (by rw [h]) else .isFalse (by simp [h])
  | .ok _, .error _ => .isFalse (by simp)
  | .error _, .ok _ => .isFalse (by simp)
  | .error x, .error y =>
    if h : x = y then .isTrue (by rw [h]) else .isFalse (by simp [h])

/-! ## Template materializer (`template_loader.py`)

`pathlib.Path` values are modelled as segment lists (`Path.parts` minus
the root anchor): `Path.__truediv__` splits its string argument on `/`,
drops empty and `"."` components, keeps `".."`, and replaces the whole
path when the argument is absolute.  `pathlib` itself never resolves
`".."`; the operating system does, so `..`-resolution (`normSegs`)
happens at the `open`/`mkdir` effect boundary, not at join time. -/

/-- Python `str.lstrip('/')`. -/
def lstripSlash (s : String) : String :=
  String.mk (s.data.dropWhile (fun c => c == '/'))

/-- Component split of a relative path string, as `pathlib` performs it. -/
def relParts (r : String) : List String :=
  (segsOf r).filter (fun s => !(s == "") && !(s == "."))

/-- Embeds `pathlib.Path.__truediv__`: absolute right operand replaces the
left; otherwise components are appended. -/
def pdiv (b : List String) (r : String) : List String :=
  if strStartsWith r "/" then relParts r else b ++ relParts r

/-- Operating-system path resolution of `"."`/`".."`/empty segments
(applied by the kernel when `open`/`mkdir` receive the path; `".."` at
the root stays at the root). -/
def normSegs (p : List String) : List String :=
  p.foldl
    (fun acc s =>
      if s == "" || s == "." then acc
      else if s == ".." then acc.dropLast
      else acc ++ [s]) []

/-- Effect of `Path.mkdir(parents=True, exist_ok=True)` on a directory set: the
path and every ancestor become present (each resolved by the OS). -/
def mkdirSet (s : Finset (List String)) (p : List String) :
    Finset (List String) :=
  s ∪ ((List.range (p.length + 1)).map (fun k => normSegs (p.take k))).toFinset

/-- Effect of `Path.mkdir(parents=False, exist_ok=True)` on a directory set:
pre-existing target is fine, but a missing parent is an error. -/
def mkdirNoParents (s : Finset (List String)) (p : List String) :
    Except Unit (Finset (List String)) :=
  let np := normSegs p
  if np ∈ s then .ok s
  else if np.dropLast ∈ s then .ok (insert np s)
  else .error ()

/-- Persistent-storage state touched by `write_files_from_template`:
file contents by (OS-resolved) path, and the created directory set. -/
structure MatState : Type where
  files : List String → Option String
  dirs : Finset (List String)

def matInit : MatState := ⟨fun _ => none, ∅⟩

/-- Effect of `open(path, 'w').write(content)`: the OS resolves the path and the
write replaces any previous content (last-write-wins). -/
def writeFile (st : MatState) (p : List String) (content : String) :
    MatState :=
  ⟨fun q => if q = normSegs p then some content else st.files q, st.dirs⟩

/-- The `mkdir(parents=True, exist_ok=True)` effect on a `MatState`. -/
def mkdirParentsM (st : MatState) (p : List String) : MatState :=
  ⟨st.files, mkdirSet st.dirs p⟩

/-- One value of the YAML `users` mapping: either a detail dictionary
or a bare (password) value, as distinguished by `isinstance` checks. -/
structure UserDetail : Type where
  password : Option String
  uid : Option Nat
  gid : Option Nat
  home : Option String
  shell : Option String
  gecos : Option String
deriving DecidableEq

inductive UserVal : Type where
  | detail (d : UserDetail) : UserVal
  | simple (v : String) : UserVal
deriving DecidableEq

/-- The YAML directory structure: a nested mapping of directory name to
sub-mapping (`data['filesystem']`), in insertion order. -/
inductive DirTree : Type where
  | node (children : List (String × DirTree)) : DirTree

/-- The slice of `YAMLTemplate` consumed by the materializer:
`get_user_details()` / `get_users().keys()` (same key order),
`get_filesystem_structure()` and `get_file_contents()`. -/
structure YAMLTemplate : Type where
  users : List (String × UserVal)
  filesystem : DirTree
  file_contents : List (String × String)

/-- The `/etc/passwd` text built at lines 312-326: a fixed root line,
then one line per user (defaults substituted for missing detail fields;
a bare value gets `uid = 1000 + len(passwd_content.split('\n'))`). -/
def passwd_content (users : List (String × UserVal)) : String :=
  users.foldl
    (fun acc uv =>
      match uv.2 with
      | .detail d =>
        acc ++ uv.1 ++ ":x:" ++ toString (d.uid.getD 1000) ++ ":"
          ++ toString (d.gid.getD 1000) ++ ":" ++ d.gecos.getD uv.1 ++ ":"
          ++ d.home.getD ("/home/" ++ uv.1) ++ ":"
          ++ d.shell.getD "/bin/bash" ++ "\n"
      | .simple _ =>
        let uid := 1000 + (acc.splitOn "\n").length
        acc ++ uv.1 ++ ":x:" ++ toString uid ++ ":" ++ toString uid
          ++ "::/home/" ++ uv.1 ++ ":/bin/bash\n")
    "root:x:0:0:root:/root:/bin/bash\n"

/-- Embeds `write_files_from_template(template, base_path)` (lines 304-338):
writes `/etc/passwd`, then every `file_contents` entry to
`base_path / filepath.lstrip('/')`, creating parent directories with
`parent.mkdir(parents=True, exist_ok=True)` before each write. -/
def write_files_from_template (t : YAMLTemplate) (base : List String)
    (st : MatState) : MatState :=
  let pw := passwd_content t.users
  let ppath := pdiv (pdiv base "etc") "passwd"
  let st1 := writeFile (mkdirParentsM st ppath.dropLast) ppath pw
  t.file_contents.foldl
    (fun s pc =>
      let fp := pdiv base (lstripSlash pc.1)
      writeFile (mkdirParentsM s fp.dropLast) fp pc.2) st1

mutual
/-- Inner `create_dirs(structure, current_path)` of
`create_filesystem_from_template` (lines 275-281). -/
def create_dirs (t : DirTree) (current_path : List String)
    (s : Finset (List String)) : Finset (List String) :=
  match t with
  | .node cs => create_dirs_list cs current_path s
/-- The `for name, subdirs in structure.items()` loop of `create_dirs`;
recursion happens only when the sub-mapping is a non-empty dict. -/
def create_dirs_list (cs : List (String × DirTree))
    (current_path : List String) (s : Finset (List String)) :
    Finset (List String) :=
  match cs with
  | [] => s
  | (name, sub) :: rest =>
    let dir_path := pdiv current_path name
    let s1 := mkdirSet s dir_path
    let s2 :=
      match sub with
      | .node [] => s1
      | .node (c :: cs') => create_dirs (.node (c :: cs')) dir_path s1
    create_dirs_list rest current_path s2
end

/-- The `standard_dirs` list (lines 284-289). -/
def standard_dirs : List String :=
  ["proc", "sys", "dev", "run", "tmp",
   "usr/bin", "usr/sbin", "usr/local/bin",
   "sbin", "lib", "bin", "etc", "var/log",
   "opt", "home", "root"]

/-- The `for username in template.get_users().keys()` loop
(lines 298-301): `base/'home'/username` with `parents=True`, then a
nested `.ssh` with `parents=False` (both `exist_ok`-tolerant). -/
def createHomes (base : List String) :
    List String → Finset (List String) → Except Unit (Finset (List String))
  | [], s => .ok s
  | u :: rest, s =>
    let user_home := pdiv (pdiv base "home") u
    let s1 := mkdirSet s user_home
    match mkdirNoParents s1 (user_home ++ [".ssh"]) with
    | .error e => .error e
    | .ok s2 => createHomes base rest s2

/-- Embeds `create_filesystem_from_template(template, base_path)`
(lines 267-301): standard directories, then the template's directory
tree, then per-user home directories. -/
def create_filesystem_from_template (t : YAMLTemplate)
    (base : List String) (s : Finset (List String)) :
    Except Unit (Finset (List String)) :=
  let s1 := standard_dirs.foldl (fun s d => mkdirSet s (pdiv base d)) s
  let s2 := create_dirs t.filesystem base s1
  createHomes base (t.users.map (fun uv => uv.1)) s2

/-! ## Concrete fixtures for witnesses and counterexamples -/

def dirStat : Stat := ⟨0, 0, 4096, 0o040755, 10⟩
def regStat : Stat := ⟨0, 0, 200, 0o100644, 20⟩
def lnkStat : Stat := ⟨0, 0, 7, 0o120777, 30⟩

/-- A small concrete source tree under `/w`: a readable directory `d`
with one file, a regular file, a blacklisted `fs.pickle`, an in-root
symlink `ln -> /w/f.txt`, an entry `bad` whose stat fails, and an
unreadable directory `priv`. -/
def wfs : FS where
  isdir := fun p => p == "/w"
  pexists := fun _ => false
  access := fun p => !(p == "/w/priv")
  islink := fun p => p == "/w/ln"
  lstat := fun p => if p == "/w/ln" then .ok lnkStat else .error ()
  stat := fun p =>
    if p == "/w/d" || p == "/w/priv" then .ok dirStat
    else if p == "/w/f.txt" || p == "/w/d/e.txt" then .ok regStat
    else .error ()
  listdir := fun p =>
    if p == "/w/" then .ok ["d", "f.txt", "fs.pickle", "ln", "bad", "priv"]
    else if p == "/w/d" then .ok ["e.txt"]
    else .error ()
  realpath := fun p => if p == "/w/ln" then "/w/f.txt" else p

/-- Variant of `wfs` with a pre-existing artifact at `/w/old.pickle`. -/
def c4FS : FS :=
  { wfs with pexists := fun p => p == "/w/old.pickle" }

/-- Source tree under `/src` with a symlink `evil` whose fully-resolved
target `/srcX/secret` lies outside `/src` but shares it as a string
prefix. -/
def cexFS : FS where
  isdir := fun p => p == "/src"
  pexists := fun _ => false
  access := fun _ => true
  islink := fun p => p == "/src/evil"
  lstat := fun p => if p == "/src/evil" then .ok lnkStat else .error ()
  stat := fun _ => .error ()
  listdir := fun p => if p == "/src/" then .ok ["evil"] else .error ()
  realpath := fun p => if p == "/src/evil" then "/srcX/secret" else p

/-- Source tree under `/src` with a symlink `evil` whose fully-resolved
target `/elsewhere/x` does not even share the root as a string prefix. -/
def c2bFS : FS where
  isdir := fun p => p == "/src"
  pexists := fun _ => false
  access := fun _ => true
  islink := fun p => p == "/src/evil"
  lstat := fun p => if p == "/src/evil" then .ok lnkStat else .error ()
  stat := fun _ => .error ()
  listdir := fun p => if p == "/src/" then .ok ["evil"] else .error ()
  realpath := fun p => if p == "/src/evil" then "/elsewhere/x" else p

/-- Source tree under `/u` whose only child is an unreadable symlink
`uln` that resolves inside the root (`/u/f`). -/
def c10FS : FS where
  isdir := fun p => p == "/u"
  pexists := fun _ => false
  access := fun p => !(p == "/u/uln")
  islink := fun p => p == "/u/uln"
  lstat := fun p => if p == "/u/uln" then .ok lnkStat else .error ()
  stat := fun _ => .error ()
  listdir := fun p => if p == "/u/" then .ok ["uln"] else .error ()
  realpath := fun p => if p == "/u/uln" then "/u/f" else p

/-- Containment notion of the spec for resolved
paths.  Modelled from the spec: the claim's phrase "the fully-resolved
target path lies outside the source root" (path containment: equal to
the root, or below it past a `/` boundary); the source has no such
definition — it uses a bare string-prefix test instead. -/
def liesWithinRoot_spec (root p : String) : Bool :=
  p == root || strStartsWith p (root ++ "/")

/-- The template exercising C1's failing input: one declared file whose
path climbs out of the destination root. -/
def c1Template : YAMLTemplate :=
  ⟨[], .node [], [("/../escape.txt", "owned")]⟩

/-- Concrete template for the C7 witness. -/
def c7Template : YAMLTemplate :=
  ⟨[("alice", .simple "pw")], .node [],
   [("/etc/motd", "Welcome"), ("/srv/app/config.ini", "key=1")]⟩

/-- Concrete template for the C8 illustration. -/
def c8Template : YAMLTemplate :=
  ⟨[("alice", .simple "pw")],
   .node [("srv", .node [("data", .node [])])], []⟩

/-! ## Predicates used by the claim statements -/

/-- A `linkTarget` slot is populated when it holds a non-empty string
(the root's `""` and the children's `None` are the zero-equivalent
sentinels of the source's 9th slot). -/
def targetPopulated (e : Entry) : Bool := !((e.target.getD "") == "")

/-- Per-entry shape invariant of claim C9: children populated only on
directory entries, `linkTarget` populated only on symlink entries, and
never both. -/
def c9inv (e : Entry) : Bool :=
  (e.contents.isEmpty || (e.ftype == T_DIR))
  && (!(targetPopulated e) || (e.ftype == T_LINK))
  && !(!(e.contents.isEmpty) && targetPopulated e)

/-- Per-entry link property of the amended claim C2: any stored target
is the full resolution of some walked path, relativized by stripping
the source-root string prefix (which that resolution bears). -/
def linkProp (fs : FS) (lr : String) (e : Entry) : Prop :=
  ∀ t, e.target = some t →
    e.ftype = T_LINK
    ∧ ∃ p, fs.access p = true ∧ strStartsWith (fs.realpath p) lr = true
        ∧ t = strDrop (fs.realpath p) lr.length

/-- Entry filter of claim C6: the name neither ends in `.pickle` nor is
`fs.pickle`. -/
def c6clean (e : Entry) : Bool :=
  !(List.isSuffixOf ".pickle".data e.name.data) && !(e.name == "fs.pickle")

/-- The OS-resolved location that `write_files_from_template` writes a
declared path `p` to: `base_path / p.lstrip('/')`. -/
def fileTarget (base : List String) (p : String) : List String :=
  normSegs (pdiv base (lstripSlash p))

/-- The directory-set effect of the user-home loop, as a pure fold
(each user contributes the home-directory ancestors and the `.ssh`
subdirectory). -/
def homesFold (base : List String) (us : List String)
    (s : Finset (List String)) : Finset (List String) :=
  us.foldl
    (fun s u =>
      insert (normSegs (pdiv (pdiv base "home") u ++ [".ssh"]))
        (mkdirSet s (pdiv (pdiv base "home") u))) s

/-- The directory set produced by `create_filesystem_from_template`,
as a pure function (the home-directory loop never fails, so the
`Except` layer always carries this value). -/
def cftSet (t : YAMLTemplate) (base : List String)
    (s : Finset (List String)) : Finset (List String) :=
  homesFold base (t.users.map (fun uv => uv.1))
    (create_dirs t.filesystem base
      (standard_dirs.foldl (fun s d => mkdirSet s (pdiv base d)) s))

/-- The snapshot tree `generate_pickle` produces on `wfs`. -/
def c9tree : Entry :=
  .mk "/" T_DIR 0 0 0 0 0
    [mkEntry "d" dirStat T_DIR [mkEntry "e.txt" regStat T_FILE [] none] none,
     mkEntry "f.txt" regStat T_FILE [] none,
     mkEntry "ln" lnkStat T_LINK [] (some "/f.txt"),
     mkEntry "priv" dirStat T_DIR [] none]
    (some "") none

/-! ## Basic lemmas about the tree model -/

@[simp] theorem mkEntry_name (n : String) (s : Stat) (t : Nat)
    (cs : List Entry) (tg : Option String) :
    Entry.name (mkEntry n s t cs tg) = n := rfl

@[simp] theorem mkEntry_ftype (n : String) (s : Stat) (t : Nat)
    (cs : List Entry) (tg : Option String) :
    Entry.ftype (mkEntry n s t cs tg) = t := rfl

@[simp] theorem mkEntry_contents (n : String) (s : Stat) (t : Nat)
    (cs : List Entry) (tg : Option String) :
    Entry.contents (mkEntry n s t cs tg) = cs := rfl

@[simp] theorem mkEntry_target (n : String) (s : Stat) (t : Nat)
    (cs : List Entry) (tg : Option String) :
    Entry.target (mkEntry n s t cs tg) = tg := rfl

@[simp] theorem entryAll_mk (p : Entry → Bool) (n : String) (s : Stat)
    (t : Nat) (cs : List Entry) (tg : Option String) :
    entryAll p (mkEntry n s t cs tg)
      = (p (mkEntry n s t cs tg) && listAll p cs) := rfl

@[simp] theorem entryHeight_mk (n : String) (s : Stat) (t : Nat)
    (cs : List Entry) (tg : Option String) :
    entryHeight (mkEntry n s t cs tg) = 1 + listHeight cs := rfl

theorem listAll_iff (p : Entry → Bool) (cs : List Entry) :
    listAll p cs = true ↔ ∀ e ∈ cs, entryAll p e = true := by
  induction cs with
  | nil => simp [listAll]
  | cons e es ih => simp [listAll, ih]

theorem listHeight_le (cs : List Entry) (d : Nat)
    (h : ∀ e ∈ cs, entryHeight e ≤ d) : listHeight cs ≤ d := by
  induction cs with
  | nil => simp [listHeight]
  | cons e es ih =>
    simp only [listHeight, max_le_iff]
    exact ⟨h e (by simp), ih (fun e he => h e (by simp [he]))⟩

/-! ## Glob-matching lemmas -/

theorem mem_tails (l' l : List Char) : l' ∈ tails l ↔ l' <:+ l := by
  induction l with
  | nil => simp [tails, List.suffix_nil]
  | cons c cs ih =>
    rw [tails]
    simp only [List.mem_cons, ih, List.suffix_cons_iff]

theorem globMatch_lit (ps : List Char)
    (hp : ∀ c ∈ ps, c ≠ '*' ∧ c ≠ '?') (l : List Char) :
    (globMatch ps l = true ↔ l = ps) := by
  induction ps generalizing l with
  | nil => cases l <;> simp [globMatch]
  | cons p ps ih =>
    have hps : p ≠ '*' ∧ p ≠ '?' := hp p (by simp)
    cases l with
    | nil =>
      rw [globMatch, if_neg hps.1]
      simp
    | cons c cs =>
      rw [globMatch, if_neg hps.1]
      simp only [if_neg hps.2, Bool.and_eq_true, beq_iff_eq, List.cons.injEq]
      rw [ih (fun c hc => hp c (by simp [hc]))]
      constructor
      · rintro ⟨h1, h2⟩; exact ⟨h1.symm, h2⟩
      · rintro ⟨h1, h2⟩; exact ⟨h1.symm, h2⟩

theorem globMatch_star (ps : List Char) (l : List Char) :
    (globMatch ('*' :: ps) l = true
      ↔ ∃ l', l' <:+ l ∧ globMatch ps l' = true) := by
  cases l with
  | nil => simp [globMatch, tails, List.suffix_nil]
  | cons c cs => simp [globMatch, List.any_eq_true, mem_tails]

/-- The default pattern `*.pickle` matches exactly the paths ending in
`.pickle` (a `*` in `fnmatch` also crosses `/` separators). -/
theorem fnmatch_star_pickle (s : String) :
    (fnmatch s "*.pickle" = true ↔ ".pickle".data <:+ s.data) := by
  have h : "*.pickle".data = '*' :: ".pickle".data := rfl
  rw [fnmatch, h, globMatch_star]
  constructor
  · rintro ⟨l', hs, hm⟩
    rw [globMatch_lit _ (by decide) l'] at hm
    rwa [hm] at hs
  · intro h'
    exact ⟨".pickle".data, h', (globMatch_lit _ (by decide) _).mpr rfl⟩

/-- The name passed to `os.path.join` is a suffix of the joined path. -/
theorem pjoin_suffix (root name : String) :
    name.data <:+ (pjoin root name).data := by
  rw [pjoin]
  split
  · exact List.suffix_refl _
  · split
    · rw [String.data_append]; exact List.suffix_append _ _
    · rw [String.data_append]; exact List.suffix_append _ _

/-- A path that survives the blacklist does not end in `.pickle`. -/
theorem check_blacklist_false_no_pickle (s : String)
    (h : check_blacklist s = false) : ¬ (".pickle".data <:+ s.data) := by
  intro hs
  have hm := (fnmatch_star_pickle s).mpr hs
  simp [check_blacklist, BLACKLIST_FILES] at h
  rw [h.2.2.2.2] at hm
  exact absurd hm (by simp)

/-- Master induction principle over the walker's output: every entry
the walk emits arises from exactly one of the three emitting branches of
the item loop (symlink with in-prefix resolved target, directory with
recursively produced children, or leaf of another type), and in each
case the child's virtual path passed the blacklist. -/
theorem recurse_all (fs : FS) (lr : String) (Q : Nat → Entry → Prop)
    (hlink : ∀ d root name (s : Stat) (p : String),
      check_blacklist (pjoin root name) = false →
      S_ISLNK s.st_mode = true →
      fs.access p = true →
      strStartsWith (fs.realpath p) lr = true →
      Q (d + 1) (mkEntry name s T_LINK []
        (some (strDrop (fs.realpath p) lr.length))))
    (hdir : ∀ d root name (s : Stat) cs,
      check_blacklist (pjoin root name) = false →
      S_ISLNK s.st_mode = false → S_ISDIR s.st_mode = true →
      (∀ e ∈ cs, Q d e) →
      Q (d + 1) (mkEntry name s T_DIR cs none))
    (hother : ∀ d root name (s : Stat),
      check_blacklist (pjoin root name) = false →
      S_ISLNK s.st_mode = false → S_ISDIR s.st_mode = false →
      Q (d + 1) (mkEntry name s (classifyRest s.st_mode) [] none)) :
    ∀ d root e, e ∈ recurse fs lr d root → Q d e := by
  intro d
  induction d with
  | zero => intro root e he; simp [recurse] at he
  | succ d ih =>
    intro root e he
    rw [recurse] at he
    split at he
    · simp at he
    · split at he
      · simp at he
      · rw [List.mem_filterMap] at he
        obtain ⟨name, hname, hpi⟩ := he
        simp only [processItem] at hpi
        split at hpi
        · exact absurd hpi (by simp)
        · rename_i hbl
          split at hpi
          · exact absurd hpi (by simp)
          · rename_i s hstat
            split at hpi
            · rename_i hlnk
              split at hpi
              · exact absurd hpi (by simp)
              · rename_i hacc
                split at hpi
                · exact absurd hpi (by simp)
                · rename_i hsw
                  rw [Option.some_inj] at hpi
                  subst hpi
                  exact hlink d _ name s _ (by simpa using hbl)
                    (by simpa using hlnk) (by simpa using hacc)
                    (by simpa using hsw)
            · rename_i hlnk
              split at hpi
              · rename_i hdir2
                rw [Option.some_inj] at hpi
                subst hpi
                exact hdir d _ name s _ (by simpa using hbl)
                  (by simpa using hlnk) (by simpa using hdir2)
                  (fun e he => ih _ e he)
              · rename_i hdir2
                rw [Option.some_inj] at hpi
                subst hpi
                exact hother d _ name s (by simpa using hbl)
                  (by simpa using hlnk) (by simpa using hdir2)

/-! ## Further tree lemmas -/

theorem entryHeight_pos (e : Entry) : 1 ≤ entryHeight e := by
  match e with
  | .mk n t u g sz m mt cs tg rf => rw [entryHeight]; omega

theorem eq_nil_of_listHeight_eq_zero (cs : List Entry)
    (h : listHeight cs = 0) : cs = [] := by
  cases cs with
  | nil => rfl
  | cons e es =>
    rw [listHeight] at h
    have := entryHeight_pos e
    omega

theorem contents_eq_nil_of_entryHeight_le_one (e : Entry)
    (h : entryHeight e ≤ 1) : e.contents = [] := by
  match e with
  | .mk n t u g sz m mt cs tg rf =>
    rw [entryHeight] at h
    exact eq_nil_of_listHeight_eq_zero cs (by omega)

/-! # Claim theorems -/

/-- Claim C3: for every directory nested exactly at the `maxDepth`
limit, the serializer still emits the directory's entry but with an
empty children sequence, and recursion stops there (totality of
`recurse` — no error); directories nested deeper than `maxDepth`
produce no entries.  Stated as: a walk with exhausted budget emits
nothing; every entry emitted with remaining budget 1 (the budget under
which entries at exactly the depth limit are produced) has empty
children; and every emitted entry's nesting height is bounded by the
budget, so no entry lies deeper than `maxDepth`. -/
theorem c3_maxdepth_cutoff (fs : FS) (lr root : String) :
    recurse fs lr 0 root = []
    ∧ (∀ e ∈ recurse fs lr 1 root, e.contents = [])
    ∧ (∀ d, ∀ e ∈ recurse fs lr d root, entryHeight e ≤ d) := by
  have hheight : ∀ d root' e, e ∈ recurse fs lr d root' → entryHeight e ≤ d := by
    apply recurse_all fs lr (fun d e => entryHeight e ≤ d)
    · intro d root' name s p _ _ _ _
      simp [entryHeight_mk, listHeight]
    · intro d root' name s cs _ _ _ hcs
      rw [entryHeight_mk]
      have := listHeight_le cs d hcs
      omega
    · intro d root' name s _ _ _
      simp [entryHeight_mk, listHeight]
  refine ⟨rfl, ?_, fun d e he => hheight d root e he⟩
  intro e he
  exact contents_eq_nil_of_entryHeight_le_one e (hheight 1 root e he)

/-- Witness for C3 at a concrete filesystem: with budget 1 the
directory `d` (which has a child at depth 2) is emitted with empty
children, and every entry of a budget-3 walk has height at most 3. -/
theorem c3_maxdepth_cutoff_witness :
    (mkEntry "d" dirStat T_DIR [] none ∈ recurse wfs "/w" 1 "/"
      ∧ mkEntry "d" dirStat T_DIR [mkEntry "e.txt" regStat T_FILE [] none]
          none ∈ recurse wfs "/w" 3 "/")
    ∧ (mkEntry "d" dirStat T_DIR [] none).contents = []
    ∧ entryHeight (mkEntry "d" dirStat T_DIR
        [mkEntry "e.txt" regStat T_FILE [] none] none) ≤ 3 :=
  ⟨⟨by decide, by decide⟩,
   (c3_maxdepth_cutoff wfs "/w" "/").2.1 _ (by decide),
   (c3_maxdepth_cutoff wfs "/w" "/").2.2 3 _ (by decide)⟩

/-- Claim C4: if the output path already exists, `generate_pickle`
fails and the output store (in particular the pre-existing file's
bytes) is unchanged; if the source root is not a directory it fails
with `SourceNotFound`; in both cases nothing is written. -/
theorem c4_preconditions (fs : FS) (store : String → Option FileData)
    (src out : String) (d : Nat) :
    (fs.isdir src = false →
      generate_pickle fs store src out d = (.error .SourceNotFound, store))
    ∧ (fs.pexists out = true →
      (∃ er, (generate_pickle fs store src out d).1 = .error er)
      ∧ (generate_pickle fs store src out d).2 = store) := by
  constructor
  · intro h
    simp [generate_pickle, h]
  · intro h
    by_cases hs : fs.isdir src = false
    · simp [generate_pickle, hs]
    · simp [generate_pickle, hs, h]

/-- Witness for C4: a source that is not a directory yields
`SourceNotFound`; a pre-existing output file yields a failure with the
store untouched. -/
theorem c4_preconditions_witness :
    (wfs.isdir "/nosrc" = false ∧ c4FS.pexists "/w/old.pickle" = true)
    ∧ generate_pickle wfs (fun _ => none) "/nosrc" "/out.pickle" 3
        = (.error .SourceNotFound, fun _ => none)
    ∧ (∃ er, (generate_pickle c4FS (fun _ => none) "/w" "/w/old.pickle" 3).1
        = .error er)
    ∧ (generate_pickle c4FS (fun _ => none) "/w" "/w/old.pickle" 3).2
        = (fun _ => none) :=
  ⟨⟨by decide, by decide⟩,
   (c4_preconditions wfs (fun _ => none) "/nosrc" "/out.pickle" 3).1 (by decide),
   ((c4_preconditions c4FS (fun _ => none) "/w" "/w/old.pickle" 3).2
     (by decide)).1,
   ((c4_preconditions c4FS (fun _ => none) "/w" "/w/old.pickle" 3).2
     (by decide)).2⟩

/-- Claim C5: per-entry I/O failures are swallowed: an unreadable
directory or a failing `listdir` makes the walk emit nothing for that
branch and continue; a failing `stat` skips exactly that entry and the
loop continues with the rest; and the whole operation succeeds for any
oracle behavior whenever the two top-level preconditions hold — no
per-entry failure is ever propagated. -/
theorem c5_best_effort (fs : FS) (lr : String) :
    (∀ root d, fs.access (pjoin lr (strDrop root 1)) = false →
      recurse fs lr (d + 1) root = [])
    ∧ (∀ root d, fs.listdir (pjoin lr (strDrop root 1)) = .error () →
      recurse fs lr (d + 1) root = [])
    ∧ (∀ rec root lp name, statOf fs (pjoin lp name) = .error () →
      processItem fs lr rec root lp name = none
      ∧ ∀ rest, (name :: rest).filterMap (processItem fs lr rec root lp)
          = rest.filterMap (processItem fs lr rec root lp))
    ∧ (∀ store src out d, fs.isdir src = true → fs.pexists out = false →
      ∃ t, (generate_pickle fs store src out d).1 = .ok t) := by
  refine ⟨?_, ?_, ?_, ?_⟩
  · intro root d h
    rw [recurse]
    simp [h]
  · intro root d h
    rw [recurse]
    by_cases ha : fs.access (pjoin lr (strDrop root 1)) = false
    · simp [ha]
    · simp [ha, h]
  · intro rec root lp name h
    have hnone : processItem fs lr rec root lp name = none := by
      simp only [processItem]
      split
      · rfl
      · rw [h]
    exact ⟨hnone, fun rest => by simp [List.filterMap_cons, hnone]⟩
  · intro store src out d h1 h2
    simp [generate_pickle, h1, h2]

/-- Witness for C5 at `wfs`: the unreadable directory `priv`, a
`listdir` failure, the vanished entry `bad`, and overall success of the
snapshot despite them. -/
theorem c5_best_effort_witness :
    (wfs.access (pjoin "/w" (strDrop "/priv" 1)) = false
      ∧ wfs.listdir (pjoin "/w" (strDrop "/nope" 1)) = .error ()
      ∧ statOf wfs (pjoin "/w/" "bad") = .error ()
      ∧ wfs.isdir "/w" = true ∧ wfs.pexists "/out.pickle" = false)
    ∧ recurse wfs "/w" 3 "/priv" = []
    ∧ recurse wfs "/w" 3 "/nope" = []
    ∧ processItem wfs "/w" (fun _ => []) "/" "/w/" "bad" = none
    ∧ (∃ t, (generate_pickle wfs (fun _ => none) "/w" "/out.pickle" 3).1
        = .ok t) :=
  ⟨⟨by decide, by decide, by decide, by decide, by decide⟩,
   (c5_best_effort wfs "/w").1 "/priv" 2 (by decide),
   (c5_best_effort wfs "/w").2.1 "/nope" 2 (by decide),
   ((c5_best_effort wfs "/w").2.2.1 (fun _ => []) "/" "/w/" "bad"
     (by decide)).1,
   (c5_best_effort wfs "/w").2.2.2 (fun _ => none) "/w" "/out.pickle" 3
     (by decide) (by decide)⟩

/-- Claim C10: a symlink whose readability check (`os.access`) fails is
omitted from the snapshot even when its fully-resolved target lies
inside the source root: readability is an omission condition
independent of containment. -/
theorem c10_unreadable_symlink (fs : FS) (lr : String)
    (rec : String → List Entry) (root lp name : String) (s : Stat)
    (hstat : statOf fs (pjoin lp name) = .ok s)
    (hlnk : S_ISLNK s.st_mode = true)
    (hacc : fs.access (pjoin lp name) = false)
    (_hin : liesWithinRoot_spec lr (fs.realpath (pjoin lp name)) = true) :
    processItem fs lr rec root lp name = none
    ∧ ∀ rest, (name :: rest).filterMap (processItem fs lr rec root lp)
        = rest.filterMap (processItem fs lr rec root lp) := by
  have hnone : processItem fs lr rec root lp name = none := by
    simp only [processItem]
    split
    · rfl
    · rw [hstat]
      simp [hlnk, hacc]
  exact ⟨hnone, fun rest => by simp [List.filterMap_cons, hnone]⟩

/-- Witness for C10: the unreadable symlink `uln` of `c10FS` resolves
to `/u/f`, inside the root `/u`, yet produces no entry. -/
theorem c10_unreadable_symlink_witness :
    (statOf c10FS (pjoin "/u/" "uln") = .ok lnkStat
      ∧ S_ISLNK lnkStat.st_mode = true
      ∧ c10FS.access (pjoin "/u/" "uln") = false
      ∧ liesWithinRoot_spec "/u" (c10FS.realpath (pjoin "/u/" "uln")) = true)
    ∧ processItem c10FS "/u" (fun _ => []) "/" "/u/" "uln" = none :=
  ⟨⟨by decide, by decide, by decide, by decide⟩,
   (c10_unreadable_symlink c10FS "/u" (fun _ => []) "/" "/u/" "uln" lnkStat
     (by decide) (by decide) (by decide) (by decide)).1⟩

/-- If a child name survives the blacklist, no entry built from it is
named with a `.pickle` suffix (hence never `fs.pickle`). -/
theorem c6clean_of_no_pickle (name : String) (s : Stat) (t : Nat)
    (cs : List Entry) (tg : Option String)
    (hnp : ¬ (".pickle".data <:+ name.data)) :
    c6clean (mkEntry name s t cs tg) = true := by
  have h2 : name ≠ "fs.pickle" := by
    rintro rfl
    exact hnp (by decide)
  have h3 : List.isSuffixOf ".pickle".data name.data = false := by
    cases hb : List.isSuffixOf ".pickle".data name.data
    · rfl
    · exact absurd (List.isSuffixOf_iff_suffix.mp hb) hnp
  simp [c6clean, h3, h2]

/-- Claim C6: a child whose virtual path matches an exclusion pattern
is skipped entirely (no entry for it or anything beneath it), and with
the default blacklist the output tree contains no entry ending in
`.pickle` — in particular none named `fs.pickle` — at any depth. -/
theorem c6_exclusion (fs : FS) (lr : String) :
    (∀ rec root lp name, check_blacklist (pjoin root name) = true →
      processItem fs lr rec root lp name = none
      ∧ ∀ rest, (name :: rest).filterMap (processItem fs lr rec root lp)
          = rest.filterMap (processItem fs lr rec root lp))
    ∧ (∀ d root e, e ∈ recurse fs lr d root → entryAll c6clean e = true) := by
  constructor
  · intro rec root lp name h
    have hnone : processItem fs lr rec root lp name = none := by
      simp [processItem, h]
    exact ⟨hnone, fun rest => by simp [List.filterMap_cons, hnone]⟩
  · apply recurse_all fs lr (fun _ e => entryAll c6clean e = true)
    · intro d root name s p hbl _ _ _
      have hnp : ¬ (".pickle".data <:+ name.data) := fun hsfx =>
        check_blacklist_false_no_pickle _ hbl
          (hsfx.trans (pjoin_suffix root name))
      simp [c6clean_of_no_pickle name s _ _ _ hnp, listAll]
    · intro d root name s cs hbl _ _ hcs
      have hnp : ¬ (".pickle".data <:+ name.data) := fun hsfx =>
        check_blacklist_false_no_pickle _ hbl
          (hsfx.trans (pjoin_suffix root name))
      simp [c6clean_of_no_pickle name s _ _ _ hnp]
      exact (listAll_iff c6clean cs).mpr hcs
    · intro d root name s hbl _ _
      have hnp : ¬ (".pickle".data <:+ name.data) := fun hsfx =>
        check_blacklist_false_no_pickle _ hbl
          (hsfx.trans (pjoin_suffix root name))
      simp [c6clean_of_no_pickle name s _ _ _ hnp, listAll]

/-- Witness for C6: the blacklisted child `fs.pickle` of `wfs` is
skipped, and a concrete walk output satisfies the name filter
everywhere. -/
theorem c6_exclusion_witness :
    (check_blacklist (pjoin "/" "fs.pickle") = true
      ∧ mkEntry "d" dirStat T_DIR [mkEntry "e.txt" regStat T_FILE [] none]
          none ∈ recurse wfs "/w" 3 "/")
    ∧ processItem wfs "/w" (fun _ => []) "/" "/w/" "fs.pickle" = none
    ∧ entryAll c6clean (mkEntry "d" dirStat T_DIR
        [mkEntry "e.txt" regStat T_FILE [] none] none) = true :=
  ⟨⟨by decide, by decide⟩,
   ((c6_exclusion wfs "/w").1 (fun _ => []) "/" "/w/" "fs.pickle"
     (by decide)).1,
   (c6_exclusion wfs "/w").2 3 "/" _ (by decide)⟩

/-- Claim C9: in every successful snapshot, the root entry is a
directory named `"/"` with uid, gid, mode and size all zero, and every
entry of the tree has populated children only if it is a directory,
a populated `linkTarget` only if it is a symlink, and never both. -/
theorem c9_tree_invariant (fs : FS) (store : String → Option FileData)
    (src out : String) (d : Nat) (t : Entry)
    (h : (generate_pickle fs store src out d).1 = .ok t) :
    t.name = "/" ∧ t.ftype = T_DIR ∧ t.uid = 0 ∧ t.gid = 0
      ∧ t.size = 0 ∧ t.mode = 0 ∧ entryAll c9inv t = true := by
  have hall : ∀ d' root e, e ∈ recurse fs src d' root →
      entryAll c9inv e = true := by
    apply recurse_all fs src (fun _ e => entryAll c9inv e = true)
    · intro d' root name s p _ _ _ _
      simp [c9inv, targetPopulated, listAll]
    · intro d' root name s cs _ _ _ hcs
      simp [c9inv, targetPopulated]
      exact (listAll_iff c9inv cs).mpr hcs
    · intro d' root name s _ _ _
      simp [c9inv, targetPopulated, listAll]
  rw [generate_pickle] at h
  split at h
  · simp at h
  · split at h
    · simp at h
    · simp only [Except.ok.injEq] at h
      subst h
      refine ⟨rfl, rfl, rfl, rfl, rfl, rfl, ?_⟩
      rw [entryAll]
      simp [c9inv, targetPopulated]
      exact ⟨⟨⟨Or.inr rfl, Or.inl rfl⟩, Or.inr rfl⟩,
        (listAll_iff c9inv _).mpr (fun e he => hall d "/" e he)⟩

/-- Witness for C9: the concrete snapshot of `wfs` satisfies the root
and shape invariants. -/
theorem c9_tree_invariant_witness :
    (generate_pickle wfs (fun _ => none) "/w" "/out.pickle" 3).1 = .ok c9tree
    ∧ (c9tree.name = "/" ∧ c9tree.ftype = T_DIR ∧ c9tree.uid = 0
      ∧ c9tree.gid = 0 ∧ c9tree.size = 0 ∧ c9tree.mode = 0
      ∧ entryAll c9inv c9tree = true) :=
  ⟨by decide,
   c9_tree_invariant wfs (fun _ => none) "/w" "/out.pickle" 3 c9tree
     (by decide)⟩

/-- Counterexample to C2 as stated: on `cexFS` the symlink
`/src/evil` fully resolves to `/srcX/secret`, which lies outside the
source root `/src` (it is neither the root nor below it), yet the
serializer emits an entry for it, with `linkTarget` `"X/secret"` —
the `startswith` string-prefix test accepts the sibling path. -/
theorem c2_out_of_root_symlink_counterexample :
    liesWithinRoot_spec "/src" (cexFS.realpath (pjoin "/src/" "evil")) = false
    ∧ mkEntry "evil" lnkStat T_LINK [] (some "X/secret")
        ∈ recurse cexFS "/src" 5 "/"
    ∧ Entry.target (mkEntry "evil" lnkStat T_LINK [] (some "X/secret"))
        = some "X/secret" :=
  ⟨by decide, by decide, by decide⟩

/-- Amended claim C2: a symlink whose fully-resolved target does not
have the source root as a *string prefix* produces no entry and the
walk continues; and every `linkTarget` in the output is the resolved
target of some walked path, relativized by stripping that string
prefix. -/
theorem c2_link_prefix_containment (fs : FS) (lr : String) :
    (∀ rec root lp name (s : Stat),
      statOf fs (pjoin lp name) = .ok s →
      S_ISLNK s.st_mode = true →
      strStartsWith (fs.realpath (pjoin lp name)) lr = false →
      processItem fs lr rec root lp name = none
      ∧ ∀ rest, (name :: rest).filterMap (processItem fs lr rec root lp)
          = rest.filterMap (processItem fs lr rec root lp))
    ∧ (∀ d root e, e ∈ recurse fs lr d root →
        EntryAllP (linkProp fs lr) e) := by
  constructor
  · intro rec root lp name s hstat hlnk hsw
    have hnone : processItem fs lr rec root lp name = none := by
      simp only [processItem]
      split
      · rfl
      · rw [hstat]
        by_cases hacc : fs.access (pjoin lp name) = false <;>
          simp [hlnk, hacc, hsw]
    exact ⟨hnone, fun rest => by simp [List.filterMap_cons, hnone]⟩
  · apply recurse_all fs lr (fun _ e => EntryAllP (linkProp fs lr) e)
    · intro d root name s p _ _ hacc hsw
      refine .intro _ ?_ ?_
      · intro t ht
        rw [mkEntry_target, Option.some_inj] at ht
        exact ⟨rfl, p, hacc, hsw, ht.symm⟩
      · intro c hc
        rw [mkEntry_contents] at hc
        simp at hc
    · intro d root name s cs _ _ _ hcs
      refine .intro _ ?_ ?_
      · intro t ht
        rw [mkEntry_target] at ht
        exact absurd ht (by simp)
      · intro c hc
        rw [mkEntry_contents] at hc
        exact hcs c hc
    · intro d root name s _ _ _
      refine .intro _ ?_ ?_
      · intro t ht
        rw [mkEntry_target] at ht
        exact absurd ht (by simp)
      · intro c hc
        rw [mkEntry_contents] at hc
        simp at hc

/-- Witness for the amended C2: on `c2bFS` the non-prefix target makes
the symlink vanish from the output; on `cexFS` the emitted entry
satisfies the relativization property. -/
theorem c2_link_prefix_containment_witness :
    (statOf c2bFS (pjoin "/src/" "evil") = .ok lnkStat
      ∧ S_ISLNK lnkStat.st_mode = true
      ∧ strStartsWith (c2bFS.realpath (pjoin "/src/" "evil")) "/src" = false
      ∧ mkEntry "evil" lnkStat T_LINK [] (some "X/secret")
          ∈ recurse cexFS "/src" 5 "/")
    ∧ processItem c2bFS "/src" (fun _ => []) "/" "/src/" "evil" = none
    ∧ EntryAllP (linkProp cexFS "/src")
        (mkEntry "evil" lnkStat T_LINK [] (some "X/secret")) :=
  ⟨⟨by decide, by decide, by decide, by decide⟩,
   ((c2_link_prefix_containment c2bFS "/src").1 (fun _ => []) "/" "/src/"
     "evil" lnkStat (by decide) (by decide) (by decide)).1,
   (c2_link_prefix_containment cexFS "/src").2 5 "/" _ (by decide)⟩

/-- Claim C1 (evidence of the code bug): the materializer performs no
normalization check at all — on the declared path `/../escape.txt` with
destination root `hp/root` it writes the content to `hp/escape.txt`,
outside the root, raising no `PathViolation` (the function has no
failure outcome). -/
theorem c1_path_escape_evidence :
    (write_files_from_template c1Template ["hp", "root"] matInit).files
        ["hp", "escape.txt"] = some "owned"
    ∧ ¬ (["hp", "root"] <+: ["hp", "escape.txt"])
    ∧ fileTarget ["hp", "root"] "/../escape.txt" = ["hp", "escape.txt"] :=
  ⟨by decide, by decide, by decide⟩

/-! ## Lemmas about the file-writing fold (claim C7) -/

/-- The `lstrip('/')` result never starts with `/`. -/
theorem lstripSlash_no_slash (p : String) :
    strStartsWith (lstripSlash p) "/" = false := by
  rw [strStartsWith, lstripSlash]
  show List.isPrefixOf ['/'] (p.data.dropWhile (fun c => c == '/')) = false
  induction p.data with
  | nil => rfl
  | cons c cs ih =>
    by_cases hc : c = '/'
    · simpa [List.dropWhile, hc] using ih
    · have hb : (c == '/') = false := beq_eq_false_iff_ne.mpr hc
      have hb2 : (('/' : Char) == c) = false :=
        beq_eq_false_iff_ne.mpr (Ne.symm hc)
      simp [List.dropWhile, hb, List.isPrefixOf, hb2]

theorem pdiv_lstrip (base : List String) (p : String) :
    pdiv base (lstripSlash p) = base ++ relParts (lstripSlash p) := by
  rw [pdiv, lstripSlash_no_slash]
  simp

/-- A normal final segment passes through OS normalization. -/
theorem normSegs_append_normal (xs : List String) (a : String)
    (h1 : a ≠ "") (h2 : a ≠ ".") (h3 : a ≠ "..") :
    normSegs (xs ++ [a]) = normSegs xs ++ [a] := by
  rw [normSegs, normSegs, List.foldl_append]
  simp [h1, h2, h3]

/-- Components produced by `relParts` are neither empty nor `"."`. -/
theorem relParts_normal (r : String) (x : String) (hx : x ∈ relParts r) :
    x ≠ "" ∧ x ≠ "." := by
  rw [relParts] at hx
  have := (List.mem_filter.mp hx).2
  simp only [Bool.and_eq_true, Bool.not_eq_true', beq_eq_false_iff_ne] at this
  exact this

/-- The write-fold of `write_files_from_template` leaves untouched any
location that is no declared entry's target. -/
theorem wft_files_untouched (base : List String)
    (l : List (String × String)) (st : MatState) (x : List String)
    (hx : ∀ qc ∈ l, fileTarget base qc.1 ≠ x) :
    (l.foldl
      (fun s pc =>
        writeFile (mkdirParentsM s (pdiv base (lstripSlash pc.1)).dropLast)
          (pdiv base (lstripSlash pc.1)) pc.2) st).files x = st.files x := by
  induction l generalizing st with
  | nil => rfl
  | cons qc rest ih =>
    rw [List.foldl_cons, ih _ (fun q hq => hx q (List.mem_cons_of_mem _ hq))]
    have h := hx qc (by simp)
    rw [fileTarget] at h
    simp only [writeFile, mkdirParentsM]
    rw [if_neg (fun hh => h hh.symm)]

/-- Last-write-wins round trip through the write-fold: a declared entry
whose target no other declared path aliases ends up stored with exactly
its declared content. -/
theorem wft_files_mem (base : List String) (l : List (String × String))
    (st : MatState) (pc : String × String) (hmem : pc ∈ l)
    (hkeys : (l.map Prod.fst).Nodup)
    (halias : ∀ qc ∈ l, fileTarget base qc.1 = fileTarget base pc.1 →
      qc.1 = pc.1) :
    (l.foldl
      (fun s pc' =>
        writeFile (mkdirParentsM s (pdiv base (lstripSlash pc'.1)).dropLast)
          (pdiv base (lstripSlash pc'.1)) pc'.2) st).files
      (fileTarget base pc.1) = some pc.2 := by
  induction l generalizing st with
  | nil => cases hmem
  | cons qc rest ih =>
    rw [List.foldl_cons]
    rw [List.map_cons, List.nodup_cons] at hkeys
    by_cases hqp : qc.1 = pc.1
    · have hc : qc.2 = pc.2 := by
        rcases List.mem_cons.mp hmem with h | h
        · rw [← h]
        · exfalso
          exact hkeys.1 (hqp ▸ List.mem_map_of_mem Prod.fst h)
      rw [wft_files_untouched base rest _ _ ?_]
      · simp only [writeFile, mkdirParentsM, fileTarget, hqp]
        simp [hc]
      · intro q hq heq
        have hq1 : q.1 = pc.1 :=
          halias q (List.mem_cons_of_mem _ hq) heq
        have hmm : qc.1 ∈ List.map Prod.fst rest := by
          rw [hqp, ← hq1]
          exact List.mem_map_of_mem Prod.fst hq
        exact absurd hmm hkeys.1
    · have hmem' : pc ∈ rest := by
        rcases List.mem_cons.mp hmem with h | h
        · exact absurd (by rw [h]) hqp
        · exact h
      exact ih _ hmem' hkeys.2
        (fun q hq heq => halias q (List.mem_cons_of_mem _ hq) heq)

/-- The write-fold only ever grows the directory set. -/
theorem wft_dirs_mono (base : List String) (l : List (String × String))
    (st : MatState) (x : List String) (hx : x ∈ st.dirs) :
    x ∈ (l.foldl
      (fun s pc =>
        writeFile (mkdirParentsM s (pdiv base (lstripSlash pc.1)).dropLast)
          (pdiv base (lstripSlash pc.1)) pc.2) st).dirs := by
  induction l generalizing st with
  | nil => exact hx
  | cons qc rest ih =>
    rw [List.foldl_cons]
    refine ih _ ?_
    simp only [writeFile, mkdirParentsM, mkdirSet]
    exact Finset.mem_union_left _ hx

/-- Every declared entry's (OS-resolved) parent directory is in the
directory set after the write-fold. -/
theorem wft_dirs_mem (base : List String) (l : List (String × String))
    (st : MatState) (pc : String × String) (hmem : pc ∈ l) :
    normSegs ((pdiv base (lstripSlash pc.1)).dropLast)
      ∈ (l.foldl
        (fun s pc' =>
          writeFile (mkdirParentsM s (pdiv base (lstripSlash pc'.1)).dropLast)
            (pdiv base (lstripSlash pc'.1)) pc'.2) st).dirs := by
  induction l generalizing st with
  | nil => cases hmem
  | cons qc rest ih =>
    rw [List.foldl_cons]
    rcases List.mem_cons.mp hmem with h | h
    · subst h
      refine wft_dirs_mono base rest _ _ ?_
      simp only [writeFile, mkdirParentsM, mkdirSet]
      refine Finset.mem_union_right _ ?_
      rw [List.mem_toFinset, List.mem_map]
      refine ⟨(pdiv base (lstripSlash pc.1)).dropLast.length, ?_, ?_⟩
      · rw [List.mem_range]
        omega
      · rw [List.take_length]
    · exact ih _ h

/-! ## Lemmas about directory materialization (claim C8) -/

theorem mkdirSet_union_right (s u : Finset (List String))
    (p : List String) : mkdirSet (s ∪ u) p = mkdirSet s p ∪ u := by
  rw [mkdirSet, mkdirSet, Finset.union_right_comm]

theorem foldl_mkdirSet_union (l : List String) (base : List String)
    (s u : Finset (List String)) :
    l.foldl (fun s d => mkdirSet s (pdiv base d)) (s ∪ u)
      = l.foldl (fun s d => mkdirSet s (pdiv base d)) s ∪ u := by
  induction l generalizing s with
  | nil => rfl
  | cons d rest ih =>
    rw [List.foldl_cons, List.foldl_cons, mkdirSet_union_right, ih]

mutual
theorem create_dirs_union (t : DirTree) (cur : List String)
    (s u : Finset (List String)) :
    create_dirs t cur (s ∪ u) = create_dirs t cur s ∪ u := by
  match t with
  | .node cs =>
    rw [create_dirs, create_dirs]
    exact create_dirs_list_union cs cur s u
theorem create_dirs_list_union (cs : List (String × DirTree))
    (cur : List String) (s u : Finset (List String)) :
    create_dirs_list cs cur (s ∪ u) = create_dirs_list cs cur s ∪ u := by
  match cs with
  | [] => rfl
  | (name, .node []) :: rest =>
    rw [create_dirs_list, create_dirs_list]
    simp only [mkdirSet_union_right]
    exact create_dirs_list_union rest cur _ u
  | (name, .node (c :: cs')) :: rest =>
    rw [create_dirs_list, create_dirs_list]
    simp only [mkdirSet_union_right,
      create_dirs_union (.node (c :: cs')) (pdiv cur name) _ u]
    exact create_dirs_list_union rest cur _ u
end

theorem homesFold_union (base : List String) (us : List String)
    (s u : Finset (List String)) :
    homesFold base us (s ∪ u) = homesFold base us s ∪ u := by
  rw [homesFold, homesFold]
  induction us generalizing s with
  | nil => rfl
  | cons v rest ih =>
    rw [List.foldl_cons, List.foldl_cons, mkdirSet_union_right,
      ← Finset.insert_union, ih]

/-- The full path itself is created by a `parents=True` mkdir. -/
theorem self_mem_mkdirSet (s : Finset (List String)) (p : List String) :
    normSegs p ∈ mkdirSet s p := by
  rw [mkdirSet]
  refine Finset.mem_union_right _ ?_
  rw [List.mem_toFinset, List.mem_map]
  exact ⟨p.length, by rw [List.mem_range]; omega, by rw [List.take_length]⟩

/-- The `mkdir(parents=False, exist_ok=True)` call succeeds whenever the
(resolved) parent exists, yielding the set extended with the target. -/
theorem mkdirNoParents_ok (s : Finset (List String)) (p : List String)
    (h : (normSegs p).dropLast ∈ s) :
    mkdirNoParents s p = .ok (insert (normSegs p) s) := by
  rw [mkdirNoParents]
  split
  · rw [Finset.insert_eq_self.mpr (by assumption)]
  · rfl

/-- The home-directory loop never fails and computes `homesFold`. -/
theorem createHomes_eq (base : List String) (us : List String)
    (s : Finset (List String)) :
    createHomes base us s = .ok (homesFold base us s) := by
  induction us generalizing s with
  | nil => rfl
  | cons v rest ih =>
    rw [createHomes, homesFold, List.foldl_cons]
    have hssh : normSegs (pdiv (pdiv base "home") v ++ [".ssh"])
        = normSegs (pdiv (pdiv base "home") v) ++ [".ssh"] :=
      normSegs_append_normal _ _ (by decide) (by decide) (by decide)
    have hpar : (normSegs (pdiv (pdiv base "home") v ++ [".ssh"])).dropLast
        ∈ mkdirSet s (pdiv (pdiv base "home") v) := by
      rw [hssh, List.dropLast_concat]
      exact self_mem_mkdirSet s _
    rw [mkdirNoParents_ok _ _ hpar]
    exact ih _

/-- The function `create_filesystem_from_template` always succeeds and computes
`cftSet`. -/
theorem create_filesystem_eq (t : YAMLTemplate) (base : List String)
    (s : Finset (List String)) :
    create_filesystem_from_template t base s = .ok (cftSet t base s) := by
  rw [create_filesystem_from_template, cftSet, createHomes_eq]

theorem cftSet_union (t : YAMLTemplate) (base : List String)
    (s u : Finset (List String)) :
    cftSet t base (s ∪ u) = cftSet t base s ∪ u := by
  rw [cftSet, cftSet, foldl_mkdirSet_union, create_dirs_union,
    homesFold_union]

/-! ## Remaining claim theorems -/

/-- Claim C7: every declared file path lands at its target with exactly
its declared content (once no later declared path aliases the same
target — writing is last-write-wins), and the parent directory chain of
the target has been created. -/
theorem c7_file_roundtrip (t : YAMLTemplate) (base : List String)
    (pc : String × String) (hmem : pc ∈ t.file_contents)
    (hkeys : (t.file_contents.map Prod.fst).Nodup)
    (halias : ∀ qc ∈ t.file_contents,
      fileTarget base qc.1 = fileTarget base pc.1 → qc.1 = pc.1) :
    (write_files_from_template t base matInit).files (fileTarget base pc.1)
      = some pc.2
    ∧ normSegs ((pdiv base (lstripSlash pc.1)).dropLast)
        ∈ (write_files_from_template t base matInit).dirs := by
  rw [write_files_from_template]
  exact ⟨wft_files_mem base t.file_contents _ pc hmem hkeys halias,
    wft_dirs_mem base t.file_contents _ pc hmem⟩

/-- Witness for C7 on a concrete template: `/etc/motd` round-trips and
its parent directory exists. -/
theorem c7_file_roundtrip_witness :
    (("/etc/motd", "Welcome") ∈ c7Template.file_contents
      ∧ (c7Template.file_contents.map Prod.fst).Nodup
      ∧ ∀ qc ∈ c7Template.file_contents,
          fileTarget ["hp"] qc.1 = fileTarget ["hp"] "/etc/motd" →
          qc.1 = "/etc/motd")
    ∧ (write_files_from_template c7Template ["hp"] matInit).files
        (fileTarget ["hp"] "/etc/motd") = some "Welcome"
    ∧ normSegs ((pdiv ["hp"] (lstripSlash "/etc/motd")).dropLast)
        ∈ (write_files_from_template c7Template ["hp"] matInit).dirs :=
  ⟨⟨by decide, by decide, by decide⟩,
   (c7_file_roundtrip c7Template ["hp"] ("/etc/motd", "Welcome")
     (by decide) (by decide) (by decide)).1,
   (c7_file_roundtrip c7Template ["hp"] ("/etc/motd", "Welcome")
     (by decide) (by decide) (by decide)).2⟩

/-- Claim C8: on an empty destination root, materializing directories
succeeds, and running it a second time on the result succeeds and
produces exactly the same directory set (idempotence; pre-existing
directories are not errors). -/
theorem c8_idempotent (t : YAMLTemplate) (base : List String) :
    ∃ S, create_filesystem_from_template t base ∅ = .ok S
      ∧ create_filesystem_from_template t base S = .ok S := by
  refine ⟨cftSet t base ∅, create_filesystem_eq t base ∅, ?_⟩
  rw [create_filesystem_eq]
  have h : cftSet t base (cftSet t base ∅) = cftSet t base ∅ := by
    conv_lhs =>
      rw [show cftSet t base ∅ = ∅ ∪ cftSet t base ∅ from
        (Finset.empty_union _).symm]
    rw [cftSet_union, Finset.union_self]
  rw [h]

end HoneyMesh
